import Mathlib

/-!
Verification development for the Form 3 → Circular 29 converter
(`full_streamlit_app.py`): a shallow embedding of the grid-scanning /
record-extraction engine and of the output layout pass, together with
theorems settling the frozen claims about them.

Modelling conventions:
* A spreadsheet cell is `Option String`: `none` models a missing value
  (pandas `NaN`; also an out-of-range positional read, which Python sees
  as `None` — the two are indistinguishable at every use site embedded
  here), `some s` a string cell.  The unit-data sheet (Table C) is read
  with `dtype=str`, so every present cell there is a string; numeric
  cells of other sheets are modelled by their `str()` rendering.
* Python's `str(cell)` of a missing value is `"nan"` where the source
  stringifies unconditionally, and `""` where the source guards with
  `pd.notna`; both are embedded explicitly at each use site.
* `float(s)` / `int(float(s))` are modelled by an exact-decimal parser
  over the grammar `[+-]? digits [. digits]? [(e|E) [+-]? digits]?`
  (surrounding whitespace stripped, as `float` does).  The `inf` / `nan`
  spellings, underscore separators and binary-double rounding artifacts
  at ≥ 17 significant digits are outside the modelled range; no claim
  depends on them.
-/

/-- A cell of a grid: `none` is a missing value (pandas NaN). -/
abbrev Cell := Option String

/-- A row of cells. -/
abbrev Row := List Cell

/-- A 2-D grid of cells, one spreadsheet sheet. -/
abbrev Grid := List Row

/-- Python `str(cell)` where the source stringifies a cell unconditionally:
a missing value prints as `"nan"`. -/
def pyStr : Cell → String
  | none => "nan"
  | some s => s

/-- `str(row[col]) if pd.notna(row[col]) else ""` — the guarded stringification
used by the scanning helpers. -/
def cellToStrOrEmpty : Cell → String
  | none => ""
  | some s => s

/-- Python regex `\s` and `str.strip()`'s whitespace set on ASCII input. -/
def isPyWs (c : Char) : Bool :=
  c == ' ' || c == '\t' || c == '\n' || c == '\r' || c == '\x0b' || c == '\x0c'

/-- Python `str.strip()`: drop leading and trailing whitespace. -/
def pyStrip (s : String) : String :=
  String.mk (((s.toList.dropWhile isPyWs).reverse.dropWhile isPyWs).reverse)

/-- Python `str.lower()` (ASCII). -/
def pyLower (s : String) : String := String.mk (s.toList.map Char.toLower)

/-- Python `str.upper()` (ASCII). -/
def pyUpper (s : String) : String := String.mk (s.toList.map Char.toUpper)

/-- Python `str.capitalize()`: first character upper-cased, the rest
lower-cased. -/
def pyCapitalize (s : String) : String :=
  match s.toList with
  | [] => ""
  | c :: cs => String.mk (c.toUpper :: cs.map Char.toLower)

/-- `normalize_text`: trim surrounding whitespace and lowercase. -/
def normalizeText (s : String) : String := pyLower (pyStrip s)

/-- Does `pat` occur as a contiguous sublist of `s`? -/
def containsAux (pat : List Char) : List Char → Bool
  | [] => pat.isEmpty
  | c :: cs => pat.isPrefixOf (c :: cs) || containsAux pat cs

/-- Python's substring test `pat in s`. -/
def containsStr (s pat : String) : Bool := containsAux pat.toList s.toList

/-- Value of a digit list read in base 10. -/
def digitsToNat (ds : List Char) : Nat :=
  ds.foldl (fun n d => 10 * n + (d.toNat - 48)) 0

/-- Split a character list into its leading digit run and the rest. -/
def spanDigits (cs : List Char) : List Char × List Char :=
  (cs.takeWhile Char.isDigit, cs.dropWhile Char.isDigit)

/-- Consume an optional leading sign; returns (is-negative, rest). -/
def parseSignChars : List Char → Bool × List Char
  | '-' :: cs => (true, cs)
  | '+' :: cs => (false, cs)
  | cs => (false, cs)

/-- Parse the optional exponent suffix of a float literal; the whole rest of
the input must be consumed. -/
def parseExpPart : List Char → Option Int
  | [] => some 0
  | c :: cs =>
    if c == 'e' || c == 'E' then
      let sr := parseSignChars cs
      let dr := spanDigits sr.2
      if dr.1.isEmpty || !dr.2.isEmpty then none
      else some (if sr.1 then -(digitsToNat dr.1 : Int) else (digitsToNat dr.1 : Int))
    else none

/-- Model of Python `float(s)` parsing on the finite-decimal grammar: returns
(negative, integer digits, fraction digits, exponent), or `none` when `float`
would raise `ValueError`. -/
def pyParseFloatParts (s : String) : Option (Bool × List Char × List Char × Int) :=
  let cs := (pyStrip s).toList
  let sr := parseSignChars cs
  let ir := spanDigits sr.2
  let fr : List Char × List Char :=
    match ir.2 with
    | '.' :: cs' => spanDigits cs'
    | _ => ([], ir.2)
  if ir.1.isEmpty && fr.1.isEmpty then none
  else
    match parseExpPart fr.2 with
    | none => none
    | some e => some (sr.1, ir.1, fr.1, e)

/-- Model of Python `int(float(s))`: parse as a float, truncate toward zero;
`none` when the parse fails (the source catches the resulting exception). -/
def pyFloatToInt (s : String) : Option Int :=
  match pyParseFloatParts s with
  | none => none
  | some (neg, ids, fds, e) =>
    let mant : Nat := digitsToNat (ids ++ fds)
    let sc : Int := e - fds.length
    let mag : Nat := if 0 ≤ sc then mant * 10 ^ sc.toNat else mant / 10 ^ (-sc).toNat
    some (if neg then -(mag : Int) else (mag : Int))

/-! ### Regex models

Executable models of the three `re.search` patterns of the metadata
extractor, on the backtracking order CPython uses for them: the match
position is the leftmost where the whole pattern matches; a greedy `\s+`
tries its maximal run first; a lazy `(.+?)` grows from one character;
`.` does not match a newline.  `IGNORECASE` is modelled by lowercasing
both sides of every literal comparison. -/

/-- Does `pat` match at position `i` of `cs`, case-insensitively? -/
def prefixAtCI (cs : List Char) (i : Nat) (pat : String) : Bool :=
  ((cs.drop i).take pat.length).map Char.toLower == pat.toList.map Char.toLower

/-- Length of the whitespace run starting at position `i`. -/
def wsRunLen (cs : List Char) (i : Nat) : Nat :=
  ((cs.drop i).takeWhile isPyWs).length

/-- Does `\s+lit` match at position `q` (at least one whitespace char, then
the literal, reachable under the greedy-`\s+`-with-backtracking order)? -/
def contWsLit (cs : List Char) (q : Nat) (lit : String) : Bool :=
  let t := wsRunLen cs q
  decide (1 ≤ t) && (List.range' 1 t).any fun u => prefixAtCI cs (q + u) lit

/-- `\s+(.+?)` followed by a continuation test: `j` is the position after the
preceding literal, `w` the whitespace run length there.  The greedy `\s+`
tries runs from `w` down to 1; for each, the lazy capture grows from one
non-newline character until `cont` accepts the position after it.  Returns
the raw capture of the first success in that order. -/
def lazyCaptureTo (cs : List Char) (j w : Nat) (cont : Nat → Bool) : Option String :=
  (List.range' 1 w).reverse.findSome? fun m =>
    let k := j + m
    match (List.range' 1 (cs.length - k)).find? (fun L =>
        ((cs.drop k).take L).all (fun c => c != '\n') && cont (k + L)) with
    | none => none
    | some L => some (String.mk ((cs.drop k).take L))

/-- One attempt of `for the project\s+(.+?)\s+having` at position `i`
(the capture is `.strip()`ped as the source does). -/
def projCaptureAt (cs : List Char) (i : Nat) : Option String :=
  let pat := "for the project"
  if prefixAtCI cs i pat then
    let j := i + pat.length
    (lazyCaptureTo cs j (wsRunLen cs j) fun q => contWsLit cs q "having").map pyStrip
  else none

/-- `re.search(r'for the project\s+(.+?)\s+having', s, re.IGNORECASE)`,
returning the stripped capture group. -/
def projCapture (s : String) : Option String :=
  let cs := s.toList
  (List.range cs.length).findSome? fun i => projCaptureAt cs i

/-- One attempt of
`having maharera registration number\s+([A-Z0-9]+)\s+being developed` at
position `i`.  The capture class is disjoint from whitespace, so the greedy
`\s+` keeps its maximal run and the greedy capture keeps its maximal
alphanumeric run. -/
def reraCaptureAt (cs : List Char) (i : Nat) : Option String :=
  let pat := "having maharera registration number"
  if prefixAtCI cs i pat then
    let j := i + pat.length
    let w := wsRunLen cs j
    if w == 0 then none
    else
      let k := j + w
      let cap := (cs.drop k).takeWhile Char.isAlphanum
      if cap.isEmpty then none
      else if contWsLit cs (k + cap.length) "being developed" then
        some (pyStrip (String.mk cap))
      else none
  else none

/-- The registration-number regex, returning the stripped capture group. -/
def reraCapture (s : String) : Option String :=
  let cs := s.toList
  (List.range cs.length).findSome? fun i => reraCaptureAt cs i

/-- One attempt of `\(as on\s+(.+?)\)` at position `i`. -/
def dateCaptureAt (cs : List Char) (i : Nat) : Option String :=
  let pat := "(as on"
  if prefixAtCI cs i pat then
    let j := i + pat.length
    (lazyCaptureTo cs j (wsRunLen cs j) fun q => cs.getD q ' ' == ')').map pyStrip
  else none

/-- The as-on-date regex, returning the stripped capture group. -/
def dateCapture (s : String) : Option String :=
  let cs := s.toList
  (List.range cs.length).findSome? fun i => dateCaptureAt cs i

/-! ### Sections and configuration -/

/-- The fixed section enumeration (`unit_sections` keys). -/
inductive Section
  | sold | unsold | tenant | landowner | rehab | cidco | pap
deriving Repr, DecidableEq

/-- The dictionary key of a section — the string that `process_form3_file`
passes to `extract_unit_data` as its `section_keyword`. -/
def sectionName : Section → String
  | .sold => "sold"
  | .unsold => "unsold"
  | .tenant => "tenant"
  | .landowner => "landowner"
  | .rehab => "rehab"
  | .cidco => "cidco"
  | .pap => "pap"

/-- `ConversionConfig.section_keywords` — the configured synonym lists
(the extraction code never consults these values, only the keys). -/
def sectionSynonyms : Section → List String
  | .sold => ["sold", "booked"]
  | .unsold => ["unsold", "available"]
  | .tenant => ["tenant", "rented"]
  | .landowner => ["landowner", "land owner", "owner"]
  | .rehab => ["existing", "members", "member"]
  | .cidco => ["CIDCO", "NMMC"]
  | .pap => ["PAP"]

/-- The order in which `process_form3_file` / `attempt_data_recovery`
enumerate sections at extraction time. -/
def extractOrder : List Section :=
  [.sold, .unsold, .tenant, .landowner, .rehab, .cidco, .pap]

/-- The fixed presentation order of `create_circular29_excel`
(landowner before tenant, unlike `extractOrder`). -/
def sectionOrder : List Section :=
  [.sold, .unsold, .landowner, .tenant, .rehab, .cidco, .pap]

/-! ### Grid scanning -/

/-- Index of the first row satisfying `p` (the source returns `-1`,
modelled here as `none`). -/
def findRowIdx (p : Row → Bool) : Grid → Option Nat
  | [] => none
  | r :: rs => if p r then some 0 else (findRowIdx p rs).map (· + 1)

/-- Does some cell of the row contain `kw`, case-insensitively?
(`find_section_start`'s per-row predicate; a missing cell stringifies to `""`
behind the `pd.notna` guard.) -/
def rowHasKeyword (kw : String) (r : Row) : Bool :=
  r.any fun c => containsStr (pyLower (cellToStrOrEmpty c)) (pyLower kw)

/-- `find_section_start`: first row any of whose cells contains the keyword. -/
def findSectionStart (g : Grid) (kw : String) : Option Nat :=
  findRowIdx (rowHasKeyword kw) g

/-- Does the row contain a cell that is exactly `1` or `"1"`?
(with string cells, exactly the string `"1"`). -/
def rowHasOne (r : Row) : Bool := r.any fun c => c == some "1"

/-- `find_data_start_row`: first row at or after `s` containing a cell
that equals `"1"`. -/
def findDataStart (g : Grid) (s : Nat) : Option Nat :=
  (findRowIdx rowHasOne (g.drop s)).map (· + s)

/-- The fixed header keyword list of `extract_unit_data`. -/
def headerKeywords : List String := ["sr", "flat", "carpet", "unit", "building", "wing"]

/-- Number of cells of the row whose `str(cell).strip().lower()` contains at
least one header keyword (a missing cell stringifies to `"nan"` here —
no keyword matches it). -/
def headerHits (r : Row) : Nat :=
  r.countP fun c => headerKeywords.any fun kw => containsStr (pyLower (pyStrip (pyStr c))) kw

/-- The header-row search of `extract_unit_data`: the first row of the window
`[max(0, data_start − 3), data_start]` with at least two keyword hits. -/
def findHeaderRow (g : Grid) (dataStart : Nat) : Option Nat :=
  (List.range' (dataStart - 3) (dataStart + 1 - (dataStart - 3))).find? fun i =>
    decide (2 ≤ headerHits (g.getD i []))

/-- Cell at (row, column); out of range is `none`, like a missing value
(Python's positional guards treat both as absent at every embedded use). -/
def cellAt (g : Grid) (r c : Nat) : Cell := (g.getD r []).getD c none

/-- The normalized header texts of row `h`
(`normalize_text(str(cell) if pd.notna(cell) else "")`). -/
def headersOf (g : Grid) (h : Nat) : List String :=
  (g.getD h []).map fun c => normalizeText (cellToStrOrEmpty c)

/-! ### Column mapping -/

/-- `col_mapping`: at most one column index per field. -/
structure ColMap where
  sr_no : Option Nat := none
  flat_no : Option Nat := none
  carpet_area : Option Nat := none
  unit_type : Option Nat := none
  building_no : Option Nat := none
deriving Repr, DecidableEq

/-- One step of the header-mapping `elif` chain of `extract_unit_data`,
for header cell text `h` at column `i`. -/
def mapHeaderCell (m : ColMap) (i : Nat) (h : String) : ColMap :=
  if containsStr h "sr" && containsStr h "no" && m.sr_no.isNone then
    { m with sr_no := some i }
  else if (containsStr h "flat" && containsStr h "no"
      || containsStr h "shop" && containsStr h "no") && m.flat_no.isNone then
    { m with flat_no := some i }
  else if containsStr h "carpet" && containsStr h "area" && m.carpet_area.isNone then
    { m with carpet_area := some i }
  else if containsStr h "unit" && containsStr h "type" && !containsStr h "apartment"
      && m.unit_type.isNone then
    { m with unit_type := some i }
  else if containsStr h "building" && containsStr h "no" && m.building_no.isNone then
    { m with building_no := some i }
  else if containsStr h "wing" && m.building_no.isNone then
    { m with building_no := some i }
  else m

/-- Build the column mapping from the normalized header texts, left to right. -/
def buildColMap (headers : List String) : ColMap :=
  ((headers.zip (List.range headers.length)).foldl
    (fun m p => mapHeaderCell m p.2 p.1) {})

/-! ### Record extraction -/

/-- One extracted unit record (`unit_data` dict). -/
structure UnitRecord where
  sr_no : Int
  building_no : String
  flat_no : String
  carpet_area : String
  status : String
  registration_date : String
deriving Repr, DecidableEq

/-- `str(row.iloc[idx]).strip()` guarded by range and `pd.notna`:
empty string when the cell is absent. -/
def fieldText (g : Grid) (r c : Nat) : String :=
  match cellAt g r c with
  | none => ""
  | some s => pyStrip s

/-- Build the record for row `r` with parsed serial `sr`
(fallback column indices 1/2/3 for unmapped fields, as the source). -/
def mkUnit (g : Grid) (cmap : ColMap) (kw : String) (r : Nat) (sr : Int) : UnitRecord :=
  { sr_no := sr
    building_no := fieldText g r (cmap.building_no.getD 1)
    flat_no := fieldText g r (cmap.flat_no.getD 2)
    carpet_area := fieldText g r (cmap.carpet_area.getD 3)
    status := pyLower kw
    registration_date := "" }

/-- The row loop of `extract_unit_data` over the remaining row indices.
`started` is `parsing_started`; the serial column is the mapped index or 0.
Scanning skips rows until the serial cell strips to `"1"`; once started, a
missing, blank or unparseable serial cell ends the record set. -/
def extractRows (g : Grid) (cmap : ColMap) (kw : String) :
    List Nat → Bool → List UnitRecord
  | [], _ => []
  | r :: rest, started =>
    if !started && pyStrip (pyStr (cellAt g r (cmap.sr_no.getD 0))) != "1" then
      extractRows g cmap kw rest false
    else
      match cellAt g r (cmap.sr_no.getD 0) with
      | none => []
      | some s =>
        if pyStrip s == "" then []
        else
          match pyFloatToInt s with
          | none => []
          | some sr => mkUnit g cmap kw r sr :: extractRows g cmap kw rest true

/-- `extract_unit_data`: locate the section, the data start and the header
row, map columns, then run the row loop.  The second component is whether
this call set `include_building_column` (the source sets the converter flag,
never clears it, whenever the mapping contains a building/wing column). -/
def extract_unit_data (g : Grid) (kw : String) : List UnitRecord × Bool :=
  match findSectionStart g kw with
  | none => ([], false)
  | some s =>
    match findDataStart g s with
    | none => ([], false)
    | some d =>
      match findHeaderRow g d with
      | none => ([], false)
      | some h =>
        let cmap := buildColMap (headersOf g h)
        (extractRows g cmap kw (List.range' d (g.length - d)) false,
         cmap.building_no.isSome)

/-! ### Specification-side characterizations of extraction (claim wording) -/

/-- Does the serial cell of row `r` strip to exactly `"1"` (the arming test)? -/
def armCond (g : Grid) (cmap : ColMap) (r : Nat) : Bool :=
  pyStrip (pyStr (cellAt g r (cmap.sr_no.getD 0))) == "1"

/-- Spec-side: the first row at or after the data start whose serial cell
strips to `"1"`. -/
def armIndex (g : Grid) (cmap : ColMap) (d : Nat) : Option Nat :=
  (List.range' d (g.length - d)).find? (armCond g cmap)

/-- Spec-side: the serial cell of row `r` is present, non-blank and parses
as an integer. -/
def validSerial (g : Grid) (cmap : ColMap) (r : Nat) : Bool :=
  match cellAt g r (cmap.sr_no.getD 0) with
  | none => false
  | some s => pyStrip s != "" && (pyFloatToInt s).isSome

/-- The parsed serial value of row `r` (0 when absent — only used under
`validSerial`). -/
def serialValue (g : Grid) (cmap : ColMap) (r : Nat) : Int :=
  match cellAt g r (cmap.sr_no.getD 0) with
  | none => 0
  | some s => (pyFloatToInt s).getD 0

/-- Spec-side: the records of the consecutive run of valid-serial rows
beginning at row `a`, ending before the first invalid row or at the end of
the grid. -/
def runRecords (g : Grid) (cmap : ColMap) (kw : String) (a : Nat) : List UnitRecord :=
  ((List.range' a (g.length - a)).takeWhile (validSerial g cmap)).map
    fun r => mkUnit g cmap kw r (serialValue g cmap r)

/-- Claim-side (C2 wording): the first row of the window
`[section_start − 3, section_start]` (clamped) with at least two header
keyword hits. -/
def claimHeaderRow (g : Grid) (sectionStart : Nat) : Option Nat :=
  (List.range' (sectionStart - 3) (sectionStart + 1 - (sectionStart - 3))).find? fun i =>
    decide (2 ≤ headerHits (g.getD i []))

/-- Claim-side (C5 wording): first row containing any configured synonym of
the label, case-insensitively. -/
def claimLocate (g : Grid) (sec : Section) : Option Nat :=
  findRowIdx (fun r => r.any fun c =>
    (sectionSynonyms sec).any fun kw => containsStr (pyLower (cellToStrOrEmpty c)) (pyLower kw)) g

/-! ### Metadata extraction -/

/-- The exception `extract_project_info` can raise: referencing the local
`project_name` / `rera_number` before assignment when a capture pattern
did not match the trigger cell. -/
inductive PyError
  | unboundLocal
deriving Repr, DecidableEq

/-- First cell (rows top-to-bottom, columns left-to-right) whose text
contains the certificate trigger sentence. -/
def findTriggerCell (g : Grid) : Option String :=
  (g.flatten.map cellToStrOrEmpty).find? fun s =>
    containsStr (pyLower s) "certificate is being issued for the project"

/-- `extract_project_info`: on the first trigger cell, apply both capture
patterns and return the pair; with no trigger cell anywhere, return
`("", "")`.  When the trigger cell is found but a pattern fails, the
source's `return project_name, rera_number` reads an unassigned local and
raises `UnboundLocalError`, modelled as `Except.error`. -/
def extract_project_info (g : Grid) : Except PyError (String × String) :=
  match findTriggerCell g with
  | none => .ok ("", "")
  | some cell =>
    match projCapture cell, reraCapture cell with
    | some p, some r => .ok (p, r)
    | _, _ => .error .unboundLocal

/-- `extract_as_on_date`: scan cells for one containing both `"table b"` and
`"as on"`; return the first successful date capture, else `""` (a trigger
cell whose capture fails is skipped and the scan continues). -/
def extract_as_on_date (g : Grid) : String :=
  ((g.flatten.map cellToStrOrEmpty).findSome? fun s =>
    if containsStr (pyLower s) "table b" && containsStr (pyLower s) "as on" then dateCapture s
    else none).getD ""

/-! ### Converter state, primary pass and recovery chain -/

/-- The per-section record lists (`unit_sections`). -/
structure SectionMap where
  sold : List UnitRecord := []
  unsold : List UnitRecord := []
  tenant : List UnitRecord := []
  landowner : List UnitRecord := []
  rehab : List UnitRecord := []
  cidco : List UnitRecord := []
  pap : List UnitRecord := []
deriving Repr, DecidableEq

/-- Lookup of one section's record list. -/
def SectionMap.get (m : SectionMap) : Section → List UnitRecord
  | .sold => m.sold
  | .unsold => m.unsold
  | .tenant => m.tenant
  | .landowner => m.landowner
  | .rehab => m.rehab
  | .cidco => m.cidco
  | .pap => m.pap

/-- Replace one section's record list. -/
def SectionMap.set (m : SectionMap) (s : Section) (us : List UnitRecord) : SectionMap :=
  match s with
  | .sold => { m with sold := us }
  | .unsold => { m with unsold := us }
  | .tenant => { m with tenant := us }
  | .landowner => { m with landowner := us }
  | .rehab => { m with rehab := us }
  | .cidco => { m with cidco := us }
  | .pap => { m with pap := us }

/-- The empty section map (`__init__`'s `unit_sections`). -/
def emptySectionMap : SectionMap := {}

/-- The Table C loop of `process_form3_file`: extract every section in
`extractOrder`; the Bool threads `include_building_column` (initially false,
set — never cleared — by any call whose mapping found a building column). -/
def processTableC (g : Grid) : SectionMap × Bool :=
  extractOrder.foldl (fun acc s =>
    let res := extract_unit_data g (sectionName s)
    (acc.1.set s res.1, acc.2 || res.2)) (emptySectionMap, false)

/-- The converter's mutable state (`Form3ToCircular29Converter` fields). -/
structure ConvState where
  project_name : String
  rera_number : String
  as_on_date : String
  include_building_column : Bool
  sections : SectionMap
deriving Repr, DecidableEq

/-- One iteration of the per-sheet section loop of `attempt_data_recovery`:
a section with an already non-empty record list is skipped; otherwise
extraction runs (setting the building flag as a side effect) and a non-empty
result is adopted. -/
def recoverSectionStep (g : Grid) (st : ConvState) (s : Section) : ConvState :=
  if (st.sections.get s).isEmpty then
    let res := extract_unit_data g (sectionName s)
    let st' := { st with include_building_column := st.include_building_column || res.2 }
    if res.1.isEmpty then st' else { st' with sections := st'.sections.set s res.1 }
  else st

/-- The per-sheet section loop of `attempt_data_recovery`. -/
def recoverSections (st : ConvState) (g : Grid) : ConvState :=
  extractOrder.foldl (recoverSectionStep g) st

/-- The date and section parts of one recovery sheet. -/
def recoveryRest (st : ConvState) (g : Grid) : ConvState :=
  let st1 := if st.as_on_date == "" then
      (let d := extract_as_on_date g
       if d == "" then st else { st with as_on_date := d })
    else st
  recoverSections st1 g

/-- Adopt the components of a newly extracted (project name, registration
number) pair: each non-empty component overwrites the stored value
(`if project_name: converter.project_name = project_name`, and likewise for
the registration number). -/
def adoptProjectInfo (st : ConvState) (pr : String × String) : ConvState :=
  let st1 := if pr.1 == "" then st else { st with project_name := pr.1 }
  if pr.2 == "" then st1 else { st1 with rera_number := pr.2 }

/-- One sheet of `attempt_data_recovery`: when project name OR registration
number is still empty, re-run the project-info extractor and adopt any
non-empty component (overwriting whatever was there); an extractor exception
is caught by the per-sheet `try/except` and skips the whole sheet. -/
def recoveryStep (st : ConvState) (g : Grid) : ConvState :=
  if st.project_name == "" || st.rera_number == "" then
    match extract_project_info g with
    | .error _ => st
    | .ok pr => recoveryRest (adoptProjectInfo st pr) g
  else recoveryRest st g

/-- The sheet loop of `attempt_data_recovery`. -/
def recoveryFold (st : ConvState) (gs : List Grid) : ConvState :=
  gs.foldl recoveryStep st

/-- The filename fallback of `process_form3_file` (lines 394–404): each field
is filled from the filename-derived value only when still empty.  The values
`fp fr fd` stand for `extract_from_filename`'s results, whose derivation is
irrelevant to the merge policy. -/
def applyFilenameFallback (st : ConvState) (fp fr fd : String) : ConvState :=
  if st.project_name == "" || st.rera_number == "" || st.as_on_date == "" then
    let st1 := if st.project_name == "" then { st with project_name := fp } else st
    let st2 := if st1.rera_number == "" then { st1 with rera_number := fr } else st1
    if st2.as_on_date == "" then { st2 with as_on_date := fd } else st2
  else st

/-! ### Layout generation (`create_circular29_excel`, data table only) -/

/-- Status column text: upper-case for cidco/pap, capitalized otherwise. -/
def statusDisplay (s : Section) : String :=
  if s == .cidco || s == .pap then pyUpper (sectionName s) else pyCapitalize (sectionName s)

/-- Registration-date column text: empty for sold, `"NA"` otherwise. -/
def regDateVal (s : Section) : String :=
  if s == .sold then "" else "NA"

/-- Round `m / d` to the nearest integer, ties to even (the rounding of
`f"{x:.2f}"` on the exact decimal value). -/
def roundHalfEven (m d : Nat) : Nat :=
  let q := m / d
  let r := m % d
  if 2 * r < d then q else if d < 2 * r then q + 1 else if q % 2 == 0 then q else q + 1

/-- The decimal digit character for `d < 10`. -/
def digitChar : Nat → Char
  | 0 => '0' | 1 => '1' | 2 => '2' | 3 => '3' | 4 => '4'
  | 5 => '5' | 6 => '6' | 7 => '7' | 8 => '8' | _ => '9'

/-- Render sign and hundredths value `n` as a fixed two-decimal string
(`f"{x:.2f}"`): integer part, a point, then exactly two digits. -/
def format2f (neg : Bool) (n : Nat) : String :=
  (if neg then "-" else "") ++ toString (n / 100) ++
    String.mk ['.', digitChar (n % 100 / 10), digitChar (n % 10)]

/-- The carpet-area cell: `try: carpet_val = f"{float(carpet_val):.2f}"
except: pass` — a parseable value is reformatted to two decimals, anything
else is written unchanged. -/
def carpetDisplay (s : String) : String :=
  match pyParseFloatParts s with
  | none => s
  | some (neg, ids, fds, e) =>
    let mant := digitsToNat (ids ++ fds)
    let sc : Int := e + 2 - fds.length
    let n : Nat := if 0 ≤ sc then mant * 10 ^ sc.toNat
      else roundHalfEven mant (10 ^ (-sc).toNat)
    format2f neg n

/-- Does the string end in a point followed by exactly two digits? -/
def isTwoDecimalString (t : String) : Bool :=
  match t.toList.reverse with
  | d1 :: d2 :: '.' :: _ => d1.isDigit && d2.isDigit
  | _ => false

/-- One rendered data row, as its list of cell texts: serial counter,
the building cell only when the document-global flag is set, then flat,
carpet (reformatted), status and registration date. -/
def renderUnitRow (flag : Bool) (counter : Nat) (sec : Section) (u : UnitRecord) :
    List String :=
  [toString counter] ++ (if flag then [pyStrip u.building_no] else []) ++
    [pyStrip u.flat_no, carpetDisplay u.carpet_area, statusDisplay sec, regDateVal sec]

/-- The inner loop of the layout pass: render one section's records,
threading the global serial counter. -/
def renderSection (flag : Bool) (sec : Section) :
    Nat → List UnitRecord → List (List String) × Nat
  | c, [] => ([], c)
  | c, u :: rest =>
    let res := renderSection flag sec (c + 1) rest
    (renderUnitRow flag c sec u :: res.1, res.2)

/-- The outer loop of the layout pass: sections in `sectionOrder`, serial
counter starting at 1 and threaded across sections. -/
def renderAll (flag : Bool) (m : SectionMap) : List (List String) :=
  (sectionOrder.foldl (fun acc s =>
    let res := renderSection flag s acc.2 (m.get s)
    (acc.1 ++ res.1, res.2)) (([] : List (List String)), 1)).1

/-- The header row of the output table: the Building No column appears only
when the document-global flag is set. -/
def renderHeaderCells (flag : Bool) : List String :=
  ["Sr.No"] ++ (if flag then ["Building No"] else []) ++
    ["Flat No./ Shop No", "Carpet Area In Sq.Mtrs ",
     "Sold/ Booked /Unsold Reserved/ Rehab/ Mortgaged/ Not for Sale",
     "Registration Date of Sub Registrar"]

/-- Spec-side: all records tagged with their section, concatenated in
presentation order. -/
def orderedTagged (m : SectionMap) : List (Section × UnitRecord) :=
  (sectionOrder.map fun s => (m.get s).map fun u => (s, u)).flatten

/-- Spec-side: rendered rows of a tagged record list with counter `c`. -/
def renderRowsFrom (flag : Bool) : Nat → List (Section × UnitRecord) → List (List String)
  | _, [] => []
  | c, p :: rest => renderUnitRow flag c p.1 p.2 :: renderRowsFrom flag (c + 1) rest

/-- The column indices the record loop reads: serial, building, flat and
carpet (mapped index or positional fallback). -/
def relevantCols (m : ColMap) : List Nat :=
  [m.sr_no.getD 0, m.building_no.getD 1, m.flat_no.getD 2, m.carpet_area.getD 3]

/-! ### Concrete fixtures for witnesses and counterexamples -/

/-- A sold section whose serial run `1, 2` is ended by the unparseable `"x"`. -/
def G1 : Grid :=
  [[some "sold units", none, none],
   [some "sr no", some "flat no", some "carpet area"],
   [some "1", some "A", some "10"],
   [some "2", some "B", some "20"],
   [some "x", some "C", some "30"]]

/-- A sold section whose serial run `1, 2` is ended by a blank serial cell. -/
def G1b : Grid :=
  [[some "sold units", none, none],
   [some "sr no", some "flat no", some "carpet area"],
   [some "1", some "A", some "10"],
   [some "2", some "B", some "20"],
   [some "", some "C", some "30"]]

/-- A sold section whose header row (row 3) sits outside the claimed
window `[section_start − 3, section_start] = [0, 0]` but inside the code's
window around the data-start row 4. -/
def G2c : Grid :=
  [[some "sold inventory", none, none, none],
   [none, none, none, none],
   [none, none, none, none],
   [some "sr no", some "flat no", some "carpet area", some "x"],
   [some "1", some "F1", some "12.5", none]]

/-- A recovery sheet carrying a full certificate sentence for project
`Beta`. -/
def G3 : Grid :=
  [[some "A certificate is being issued for the project Beta having maharera registration number B1RERA being developed by Z"]]

/-- Converter state after a primary pass that found the project name but
not the registration number. -/
def st0 : ConvState :=
  { project_name := "Alpha", rera_number := "", as_on_date := "x"
    include_building_column := false, sections := {} }

/-- Converter state with all three metadata fields non-empty. -/
def stW : ConvState :=
  { project_name := "Alpha", rera_number := "R1", as_on_date := "D1"
    include_building_column := false, sections := {} }

/-- A grid whose only cell contains the trigger sentence but defeats both
capture patterns (no `having ...` continuation). -/
def G4 : Grid :=
  [[some "This certificate is being issued for the project Gamma."]]

/-- A grid announcing the sold section only through the configured synonym
`booked`, never through the word `sold`. -/
def G5 : Grid :=
  [[some "Booked inventory"]]

/-- A document whose sold section has a wing column but whose tenant
section's header has no building/wing token. -/
def G6w : Grid :=
  [[some "sold items", none, none, none],
   [some "sr no", some "wing", some "flat no", some "carpet area"],
   [some "1", some "W1", some "F1", some "10"],
   [some "tenant list", none, none, none],
   [some "sr no", some "flat no", none, none],
   [some "1", some "F9", none, some "5"]]

/-- A sold section with two data rows; the last column is unused narrative
space. -/
def G8a : Grid :=
  [[some "sold stock", none, none, none, none],
   [some "sr no", some "flat no", some "carpet area", none, none],
   [some "1", some "F1", some "10", none, none],
   [some "2", some "F2", some "20", none, none]]

/-- `G8a` with another section's banner keyword dropped into an unused cell
of a data row. -/
def G8b : Grid :=
  [[some "sold stock", none, none, none, none],
   [some "sr no", some "flat no", some "carpet area", none, none],
   [some "1", some "F1", some "10", none, none],
   [some "2", some "F2", some "20", none, some "tenant"]]

/-- Concrete records (serial values deliberately unrelated to 1..N). -/
def rA : UnitRecord :=
  { sr_no := 1, building_no := "B1", flat_no := "F1", carpet_area := "10"
    status := "sold", registration_date := "" }

/-- Second concrete record. -/
def rB : UnitRecord :=
  { sr_no := 2, building_no := "B2", flat_no := "F2", carpet_area := "20"
    status := "sold", registration_date := "" }

/-- Third concrete record, with an unparseable carpet area. -/
def rC : UnitRecord :=
  { sr_no := 7, building_no := "B3", flat_no := "F3", carpet_area := "xx"
    status := "unsold", registration_date := "" }

/-- Section map for the ordering example: sold=[A,B], unsold=[C],
landowner=[]. -/
def mW7 : SectionMap := { sold := [rA, rB], unsold := [rC] }

/-- Section map with one sold and one cidco record. -/
def mW9 : SectionMap := { sold := [rA], cidco := [rC] }

/-! ## Helper lemmas -/

/-- `findRowIdx` returns an in-range index. -/
theorem findRowIdx_lt_length (p : Row → Bool) :
    ∀ (g : Grid) (i : Nat), findRowIdx p g = some i → i < g.length := by
  intro g
  induction g with
  | nil => intro i h; simp [findRowIdx] at h
  | cons r rs ih =>
    intro i h
    by_cases hp : p r
    · simp [findRowIdx, hp] at h
      simp [← h]
    · simp [findRowIdx, hp] at h
      obtain ⟨j, hj, rfl⟩ := h
      have := ih j hj
      simp
      omega

/-- First-match characterization of `findRowIdx`. -/
theorem findRowIdx_eq_some_iff (p : Row → Bool) :
    ∀ (g : Grid) (i : Nat), findRowIdx p g = some i ↔
      ((∃ r, g.get? i = some r ∧ p r = true) ∧
       ∀ j, j < i → ∀ r, g.get? j = some r → p r = false) := by
  intro g
  induction g with
  | nil => intro i; simp [findRowIdx]
  | cons r rs ih =>
    intro i
    by_cases hp : p r
    · simp only [findRowIdx, hp, if_pos]
      constructor
      · intro h
        obtain rfl : (0 : Nat) = i := by simpa using h
        exact ⟨⟨r, rfl, hp⟩, fun j hj => by omega⟩
      · rintro ⟨⟨r', hr', hp'⟩, hmin⟩
        cases i with
        | zero => rfl
        | succ i' =>
          have h0 : (r :: rs).get? 0 = some r := rfl
          have := hmin 0 (by omega) r h0
          simp [hp] at this
    · simp only [findRowIdx, hp, if_neg, Bool.false_eq_true, not_false_iff]
      constructor
      · intro h
        rw [Option.map_eq_some'] at h
        obtain ⟨j, hj, rfl⟩ := h
        obtain ⟨⟨r', hr', hp'⟩, hmin⟩ := (ih j).1 hj
        refine ⟨⟨r', hr', hp'⟩, ?_⟩
        intro k hk rk hrk
        cases k with
        | zero =>
          have : r = rk := Option.some.inj hrk
          subst this
          simpa using hp
        | succ k' =>
          exact hmin k' (by omega) rk hrk
      · rintro ⟨⟨r', hr', hp'⟩, hmin⟩
        cases i with
        | zero =>
          have : r = r' := Option.some.inj hr'
          subst this
          simp [hp'] at hp
        | succ i' =>
          rw [Option.map_eq_some']
          refine ⟨i', ?_, rfl⟩
          refine (ih i').2 ⟨⟨r', hr', hp'⟩, ?_⟩
          intro k hk rk hrk
          exact hmin (k+1) (by omega) rk hrk

/-- No-match characterization of `findRowIdx`. -/
theorem findRowIdx_eq_none_iff (p : Row → Bool) :
    ∀ (g : Grid), findRowIdx p g = none ↔ ∀ r ∈ g, p r = false := by
  intro g
  induction g with
  | nil => simp [findRowIdx]
  | cons r rs ih =>
    by_cases hp : p r
    · simp [findRowIdx, hp]
    · simpa [findRowIdx, hp] using ih

/-- First-match characterization of `find?` over a consecutive range. -/
theorem find?_range'_eq_some (p : Nat → Bool) :
    ∀ (n s x : Nat), (List.range' s n).find? p = some x ↔
      (s ≤ x ∧ x < s + n ∧ p x = true ∧ ∀ y, s ≤ y → y < x → p y = false) := by
  intro n
  induction n with
  | zero =>
    intro s x
    simp [List.range']
    omega
  | succ n ih =>
    intro s x
    rw [show List.range' s (n+1) = s :: List.range' (s+1) n from List.range'_succ s n 1]
    rw [List.find?_cons]
    by_cases hp : p s
    · simp only [hp]
      constructor
      · intro h
        obtain rfl : s = x := by simpa using h
        exact ⟨le_refl s, by omega, hp, fun y h1 h2 => by omega⟩
      · rintro ⟨h1, h2, h3, hmin⟩
        rcases Nat.eq_or_lt_of_le h1 with rfl | hlt
        · rfl
        · have := hmin s (le_refl s) hlt
          simp [hp] at this
    · have hp' : p s = false := by simpa using hp
      simp only [hp']
      rw [ih (s+1) x]
      constructor
      · rintro ⟨h1, h2, h3, hmin⟩
        refine ⟨by omega, by omega, h3, ?_⟩
        intro y hy1 hy2
        rcases Nat.eq_or_lt_of_le hy1 with rfl | hy3
        · exact hp'
        · exact hmin y hy3 hy2
      · rintro ⟨h1, h2, h3, hmin⟩
        have hsx : s ≠ x := by
          rintro rfl
          simp [h3] at hp
        refine ⟨by omega, by omega, h3, ?_⟩
        intro y hy1 hy2
        exact hmin y (by omega) hy2

/-- A serial cell that strips to `"1"` parses to the integer 1. -/
theorem parse_of_strip_one {s : String} (h : pyStrip s = "1") : pyFloatToInt s = some 1 := by
  unfold pyFloatToInt pyParseFloatParts
  rw [h]
  rfl

/-- Once armed, the row loop takes exactly the maximal valid-serial prefix. -/
theorem extractRows_true_eq (g : Grid) (cmap : ColMap) (kw : String) :
    ∀ rs : List Nat, extractRows g cmap kw rs true =
      (rs.takeWhile (validSerial g cmap)).map
        (fun r => mkUnit g cmap kw r (serialValue g cmap r)) := by
  intro rs
  induction rs with
  | nil => rfl
  | cons r rest ih =>
    simp only [extractRows, Bool.not_true, Bool.false_and, List.takeWhile_cons]
    cases hcell : cellAt g r (cmap.sr_no.getD 0) with
    | none =>
      simp [validSerial, hcell]
    | some s =>
      by_cases hbl : pyStrip s = ""
      · simp [validSerial, hcell, hbl]
      · cases hpi : pyFloatToInt s with
        | none => simp [validSerial, hcell, hbl, hpi]
        | some v => simp [validSerial, serialValue, hcell, hbl, hpi, ih]

/-- The scanning loop from the data start: no records before the first
arming row, then the valid-serial run from there. -/
theorem extractRows_false_eq (g : Grid) (cmap : ColMap) (kw : String) :
    ∀ (n d : Nat), d + n = g.length →
      extractRows g cmap kw (List.range' d n) false =
        (match (List.range' d n).find? (armCond g cmap) with
         | none => []
         | some a => runRecords g cmap kw a) := by
  intro n
  induction n with
  | zero => intro d hd; rfl
  | succ n ih =>
    intro d hd
    rw [show List.range' d (n+1) = d :: List.range' (d+1) n from List.range'_succ d n 1]
    rw [List.find?_cons]
    by_cases ha : armCond g cmap d = true
    · have hcell : ∃ s, cellAt g d (cmap.sr_no.getD 0) = some s ∧ pyStrip s = "1" := by
        unfold armCond at ha
        cases hc : cellAt g d (cmap.sr_no.getD 0) with
        | none => rw [hc] at ha; exact absurd ha (by decide)
        | some s =>
          rw [hc] at ha
          exact ⟨s, rfl, by simpa [pyStr] using ha⟩
      obtain ⟨s, hc, h1⟩ := hcell
      have hparse : pyFloatToInt s = some 1 := parse_of_strip_one h1
      have hbl : ¬ (pyStrip s = "") := by rw [h1]; decide
      simp only [ha]
      have hvalid : validSerial g cmap d = true := by
        simp [validSerial, hc, hbl, hparse]
      have hsv : serialValue g cmap d = 1 := by
        simp [serialValue, hc, hparse]
      rw [show extractRows g cmap kw (d :: List.range' (d+1) n) false =
          mkUnit g cmap kw d 1 :: extractRows g cmap kw (List.range' (d+1) n) true by
        simp [extractRows, hc, pyStr, h1, hbl, hparse]]
      rw [extractRows_true_eq]
      unfold runRecords
      rw [show g.length - d = n + 1 by omega]
      rw [show List.range' d (n+1) = d :: List.range' (d+1) n from List.range'_succ d n 1]
      rw [List.takeWhile_cons, hvalid]
      simp only [if_pos, List.map_cons, hsv]
    · have ha' : (pyStrip (pyStr (cellAt g d (cmap.sr_no.getD 0))) == "1") = false := by
        simpa [armCond] using ha
      have hcond : (!false && pyStrip (pyStr (cellAt g d (cmap.sr_no.getD 0))) != "1") = true := by
        simp [bne, ha']
      have hskip : extractRows g cmap kw (d :: List.range' (d+1) n) false =
          extractRows g cmap kw (List.range' (d+1) n) false := by
        simp only [extractRows, hcond, if_true]
      rw [hskip, ih (d+1) (by omega)]
      have ha'' : armCond g cmap d = false := by simpa [armCond] using ha
      simp only [ha'']

/-- Each rendered data row has the building cell exactly when the flag is
set: 6 cells with it, 5 without. -/
theorem renderUnitRow_length (flag : Bool) (c : Nat) (sec : Section) (u : UnitRecord) :
    (renderUnitRow flag c sec u).length = if flag then 6 else 5 := by
  cases flag <;> simp [renderUnitRow]

/-- `renderSection` renders its records in order with consecutive counters. -/
theorem renderSection_spec (flag : Bool) (sec : Section) :
    ∀ (us : List UnitRecord) (c : Nat),
      renderSection flag sec c us =
        (renderRowsFrom flag c (us.map fun u => (sec, u)), c + us.length) := by
  intro us
  induction us with
  | nil => intro c; simp [renderSection, renderRowsFrom]
  | cons u rest ih =>
    intro c
    simp [renderSection, renderRowsFrom, ih (c+1)]
    omega

/-- Rendering a concatenation splits with a shifted counter. -/
theorem renderRowsFrom_append (flag : Bool) :
    ∀ (l1 l2 : List (Section × UnitRecord)) (c : Nat),
      renderRowsFrom flag c (l1 ++ l2) =
        renderRowsFrom flag c l1 ++ renderRowsFrom flag (c + l1.length) l2 := by
  intro l1
  induction l1 with
  | nil => intro l2 c; simp [renderRowsFrom]
  | cons p rest ih =>
    intro l2 c
    simp only [List.cons_append, renderRowsFrom, List.length_cons, List.append_eq]
    rw [ih l2 (c+1)]
    have h : c + 1 + rest.length = c + (rest.length + 1) := by omega
    rw [h]

/-- The layout pass renders exactly the presentation-ordered tagged records
with the global counter starting at 1. -/
theorem renderAll_eq (flag : Bool) (m : SectionMap) :
    renderAll flag m = renderRowsFrom flag 1 (orderedTagged m) := by
  have key : ∀ (sects : List Section) (acc : List (List String)) (c : Nat),
      (sects.foldl (fun acc s =>
        let res := renderSection flag s acc.2 (m.get s)
        (acc.1 ++ res.1, res.2)) (acc, c)) =
      (acc ++ renderRowsFrom flag c
          ((sects.map fun s => (m.get s).map fun u => (s, u)).flatten),
       c + ((sects.map fun s => (m.get s).map fun u => (s, u)).flatten).length) := by
    intro sects
    induction sects with
    | nil => intro acc c; simp [renderRowsFrom]
    | cons s rest ih =>
      intro acc c
      simp only [List.foldl_cons, List.map_cons, List.flatten_cons]
      rw [renderSection_spec]
      rw [ih]
      rw [renderRowsFrom_append]
      simp only [List.length_map, List.length_append, List.append_assoc,
        List.length_flatten, Prod.mk.injEq]
      exact ⟨trivial, by omega⟩
  unfold renderAll orderedTagged
  rw [key]
  simp

/-- The `i`-th rendered row comes from the `i`-th tagged record, with serial
counter `c + i`. -/
theorem renderRowsFrom_get? (flag : Bool) :
    ∀ (l : List (Section × UnitRecord)) (c i : Nat),
      (renderRowsFrom flag c l).get? i =
        (l.get? i).map fun p => renderUnitRow flag (c + i) p.1 p.2 := by
  intro l
  induction l with
  | nil => intro c i; simp [renderRowsFrom]
  | cons p rest ih =>
    intro c i
    cases i with
    | zero => simp [renderRowsFrom]
    | succ i' =>
      show (renderRowsFrom flag (c+1) rest).get? i' = _
      rw [ih (c+1) i']
      have h : c + 1 + i' = c + (i' + 1) := by omega
      rw [h]
      rfl

/-- Rendering preserves the number of records. -/
theorem renderRowsFrom_length (flag : Bool) :
    ∀ (l : List (Section × UnitRecord)) (c : Nat),
      (renderRowsFrom flag c l).length = l.length := by
  intro l
  induction l with
  | nil => intro c; rfl
  | cons p rest ih =>
    intro c
    simp [renderRowsFrom, ih (c+1)]

/-- Every rendered row is some `renderUnitRow`. -/
theorem mem_renderRowsFrom (flag : Bool) :
    ∀ (l : List (Section × UnitRecord)) (c : Nat) (row : List String),
      row ∈ renderRowsFrom flag c l → ∃ k sec u, row = renderUnitRow flag k sec u := by
  intro l
  induction l with
  | nil => intro c row h; simp [renderRowsFrom] at h
  | cons p rest ih =>
    intro c row h
    simp only [renderRowsFrom, List.mem_cons] at h
    rcases h with rfl | h
    · exact ⟨c, p.1, p.2, rfl⟩
    · exact ih (c+1) row h

/-- The threaded building flag of the Table C loop is the disjunction of the
per-section results. -/
theorem processTableC_flag_any (g : Grid) :
    ∀ (l : List Section) (m : SectionMap) (b : Bool),
      (l.foldl (fun acc s =>
        let res := extract_unit_data g (sectionName s)
        (acc.1.set s res.1, acc.2 || res.2)) (m, b)).2 =
      (b || l.any fun s => (extract_unit_data g (sectionName s)).2) := by
  intro l
  induction l with
  | nil => intro m b; simp
  | cons s rest ih =>
    intro m b
    simp only [List.foldl_cons, List.any_cons]
    rw [ih]
    simp [Bool.or_assoc]

/-- The section-recovery step never touches the metadata fields. -/
theorem recoverSectionStep_meta (g : Grid) (st : ConvState) (s : Section) :
    (recoverSectionStep g st s).project_name = st.project_name ∧
    (recoverSectionStep g st s).rera_number = st.rera_number ∧
    (recoverSectionStep g st s).as_on_date = st.as_on_date := by
  unfold recoverSectionStep
  split
  · dsimp only
    split <;> exact ⟨rfl, rfl, rfl⟩
  · exact ⟨rfl, rfl, rfl⟩

/-- The whole section-recovery loop never touches the metadata fields. -/
theorem recoverSections_meta (g : Grid) :
    ∀ (l : List Section) (st : ConvState),
      ((l.foldl (recoverSectionStep g) st).project_name = st.project_name ∧
       (l.foldl (recoverSectionStep g) st).rera_number = st.rera_number ∧
       (l.foldl (recoverSectionStep g) st).as_on_date = st.as_on_date) := by
  intro l
  induction l with
  | nil => intro st; exact ⟨rfl, rfl, rfl⟩
  | cons s rest ih =>
    intro st
    simp only [List.foldl_cons]
    obtain ⟨h1, h2, h3⟩ := ih (recoverSectionStep g st s)
    obtain ⟨g1, g2, g3⟩ := recoverSectionStep_meta g st s
    exact ⟨h1.trans g1, h2.trans g2, h3.trans g3⟩

/-- The date-and-sections part of a recovery sheet never touches project
name or registration number, and keeps a non-empty date. -/
theorem recoveryRest_meta (st : ConvState) (g : Grid) :
    (recoveryRest st g).project_name = st.project_name ∧
    (recoveryRest st g).rera_number = st.rera_number ∧
    (st.as_on_date ≠ "" → (recoveryRest st g).as_on_date = st.as_on_date) := by
  unfold recoveryRest recoverSections
  by_cases hd : st.as_on_date = ""
  · have hb : (st.as_on_date == "") = true := by simp [hd]
    simp only [hb, if_true]
    split
    · obtain ⟨h1, h2, h3⟩ := recoverSections_meta g extractOrder st
      exact ⟨h1, h2, fun h => absurd hd h⟩
    · obtain ⟨h1, h2, h3⟩ :=
        recoverSections_meta g extractOrder { st with as_on_date := extract_as_on_date g }
      exact ⟨h1, h2, fun h => absurd hd h⟩
  · have hb : (st.as_on_date == "") = false := by simp [hd]
    simp only [hb, Bool.false_eq_true, if_false]
    obtain ⟨h1, h2, h3⟩ := recoverSections_meta g extractOrder st
    exact ⟨h1, h2, fun _ => h3⟩

/-- Adopting a project-info pair never touches the date. -/
theorem adoptProjectInfo_date (st : ConvState) (pr : String × String) :
    (adoptProjectInfo st pr).as_on_date = st.as_on_date := by
  unfold adoptProjectInfo
  dsimp only
  split
  · split <;> rfl
  · split <;> rfl

/-- One recovery sheet keeps a non-empty date, and keeps project name and
registration number once both are non-empty. -/
theorem recoveryStep_preserves (st : ConvState) (g : Grid) :
    (st.as_on_date ≠ "" → (recoveryStep st g).as_on_date = st.as_on_date) ∧
    (st.project_name ≠ "" → st.rera_number ≠ "" →
      (recoveryStep st g).project_name = st.project_name ∧
      (recoveryStep st g).rera_number = st.rera_number) := by
  constructor
  · intro hdate
    unfold recoveryStep
    split
    · split
      · rfl
      · rename_i pr hpr
        have hd2 : (adoptProjectInfo st pr).as_on_date = st.as_on_date :=
          adoptProjectInfo_date st pr
        have hkeep := (recoveryRest_meta (adoptProjectInfo st pr) g).2.2
          (by rw [hd2]; exact hdate)
        rw [hkeep, hd2]
    · exact (recoveryRest_meta st g).2.2 hdate
  · intro hpn hrn
    unfold recoveryStep
    have hc : (st.project_name == "" || st.rera_number == "") = false := by
      simp [hpn, hrn]
    simp only [hc, Bool.false_eq_true, if_false]
    obtain ⟨h1, h2, h3⟩ := recoveryRest_meta st g
    exact ⟨h1, h2⟩

/-- The recovery sheet loop keeps a non-empty date, and keeps project name
and registration number once both are non-empty. -/
theorem recoveryFold_preserves :
    ∀ (gs : List Grid) (st : ConvState),
      (st.as_on_date ≠ "" → (recoveryFold st gs).as_on_date = st.as_on_date) ∧
      (st.project_name ≠ "" → st.rera_number ≠ "" →
        (recoveryFold st gs).project_name = st.project_name ∧
        (recoveryFold st gs).rera_number = st.rera_number) := by
  intro gs
  induction gs with
  | nil => intro st; exact ⟨fun _ => rfl, fun _ _ => ⟨rfl, rfl⟩⟩
  | cons g rest ih =>
    intro st
    constructor
    · intro hdate
      have hstep := (recoveryStep_preserves st g).1 hdate
      have hrest := (ih (recoveryStep st g)).1 (by rw [hstep]; exact hdate)
      simp only [recoveryFold, List.foldl_cons] at hrest ⊢
      rw [hrest, hstep]
    · intro hpn hrn
      obtain ⟨h1, h2⟩ := (recoveryStep_preserves st g).2 hpn hrn
      obtain ⟨i1, i2⟩ :=
        (ih (recoveryStep st g)).2 (by rw [h1]; exact hpn) (by rw [h2]; exact hrn)
      simp only [recoveryFold, List.foldl_cons] at i1 i2 ⊢
      exact ⟨i1.trans h1, i2.trans h2⟩

/-- `digitChar` always yields a decimal digit character. -/
theorem digitChar_isDigit : ∀ d : Nat, (digitChar d).isDigit = true := by
  intro d
  match d with
  | 0 | 1 | 2 | 3 | 4 | 5 | 6 | 7 | 8 => decide
  | n+9 => rfl

/-- `format2f` always ends in a point followed by exactly two digits. -/
theorem format2f_isTwoDecimal (neg : Bool) (n : Nat) :
    isTwoDecimalString (format2f neg n) = true := by
  unfold format2f isTwoDecimalString
  simp only [String.toList, String.data_append, List.reverse_append, List.reverse_cons,
    List.reverse_nil, List.nil_append, List.append_assoc, List.cons_append]
  simp [digitChar_isDigit]

/-- The registration-date cell is the last cell of a rendered row. -/
theorem renderUnitRow_getLast (flag : Bool) (c : Nat) (sec : Section) (u : UnitRecord) :
    (renderUnitRow flag c sec u).getLast? = some (regDateVal sec) := by
  cases flag <;> rfl

/-- The registration-date text, case-split on the section. -/
theorem regDateVal_eq (sec : Section) :
    regDateVal sec = if sec = Section.sold then "" else "NA" := by
  cases sec <;> rfl

/-- A data-start index is in range. -/
theorem findDataStart_lt (g : Grid) (s d : Nat) (h : findDataStart g s = some d) :
    d < g.length := by
  unfold findDataStart at h
  rw [Option.map_eq_some'] at h
  obtain ⟨i, hi, rfl⟩ := h
  have hlt := findRowIdx_lt_length _ _ _ hi
  simp only [List.length_drop] at hlt
  omega

/-- The row loop reads only the serial/building/flat/carpet columns of the
rows it visits: grids agreeing there extract identically. -/
theorem extractRows_congr (g1 g2 : Grid) (cmap : ColMap) (kw : String) :
    ∀ (rs : List Nat) (started : Bool),
      (∀ r ∈ rs, ∀ c ∈ relevantCols cmap, cellAt g1 r c = cellAt g2 r c) →
      extractRows g1 cmap kw rs started = extractRows g2 cmap kw rs started := by
  intro rs
  induction rs with
  | nil => intro started _; rfl
  | cons r rest ih =>
    intro started h
    have hmem : ∀ c ∈ relevantCols cmap, cellAt g1 r c = cellAt g2 r c :=
      h r (List.mem_cons_self _ _)
    have hsr : cellAt g1 r (cmap.sr_no.getD 0) = cellAt g2 r (cmap.sr_no.getD 0) :=
      hmem _ (by simp [relevantCols])
    have hb : cellAt g1 r (cmap.building_no.getD 1) = cellAt g2 r (cmap.building_no.getD 1) :=
      hmem _ (by simp [relevantCols])
    have hf : cellAt g1 r (cmap.flat_no.getD 2) = cellAt g2 r (cmap.flat_no.getD 2) :=
      hmem _ (by simp [relevantCols])
    have hca : cellAt g1 r (cmap.carpet_area.getD 3) = cellAt g2 r (cmap.carpet_area.getD 3) :=
      hmem _ (by simp [relevantCols])
    have hrest : ∀ r' ∈ rest, ∀ c ∈ relevantCols cmap, cellAt g1 r' c = cellAt g2 r' c :=
      fun r' hr' => h r' (List.mem_cons_of_mem _ hr')
    have hmk : ∀ sr : Int, mkUnit g1 cmap kw r sr = mkUnit g2 cmap kw r sr := by
      intro sr
      unfold mkUnit fieldText
      rw [hb, hf, hca]
    simp only [extractRows, hsr, hmk, ih true hrest, ih false hrest]

/-! ## Claims -/

/-- C1: for every grid and every section whose header row was detected,
record extraction returns exactly the records of the consecutive run of rows
beginning at the first row at or after the data start whose serial cell
(mapped index, or column 0 if unmapped) strips to exactly `"1"`, ending
before the first later row whose serial cell is missing, blank or fails
integer parsing, or at the end of the grid; rows before the arming row
contribute no records and no trailing partial record is emitted. -/
theorem c1_record_run (g : Grid) (kw : String) (s d h : Nat)
    (hs : findSectionStart g kw = some s)
    (hd : findDataStart g s = some d)
    (hh : findHeaderRow g d = some h) :
    (extract_unit_data g kw).1 =
      (match armIndex g (buildColMap (headersOf g h)) d with
       | none => []
       | some a => runRecords g (buildColMap (headersOf g h)) kw a) := by
  unfold extract_unit_data
  rw [hs]
  dsimp only
  rw [hd]
  dsimp only
  rw [hh]
  dsimp only
  have hdlt : d < g.length := findDataStart_lt g s d hd
  unfold armIndex
  exact extractRows_false_eq g (buildColMap (headersOf g h)) kw (g.length - d) d (by omega)

/-- C1 witness: on the fixture grids the hypotheses hold, the characterization
applies, and the serial runs `[1, 2, "x"]` and `[1, 2, ""]` each yield
exactly 2 records. -/
theorem c1_record_run_witness :
    ((extract_unit_data G1 "sold").1 =
      (match armIndex G1 (buildColMap (headersOf G1 1)) 2 with
       | none => []
       | some a => runRecords G1 (buildColMap (headersOf G1 1)) "sold" a)) ∧
    (extract_unit_data G1 "sold").1.length = 2 ∧
    ((extract_unit_data G1b "sold").1 =
      (match armIndex G1b (buildColMap (headersOf G1b 1)) 2 with
       | none => []
       | some a => runRecords G1b (buildColMap (headersOf G1b 1)) "sold" a)) ∧
    (extract_unit_data G1b "sold").1.length = 2 :=
  ⟨c1_record_run G1 "sold" 0 2 1 (by decide) (by decide) (by decide),
   by decide,
   c1_record_run G1b "sold" 0 2 1 (by decide) (by decide) (by decide),
   by decide⟩

/-- C2 counterexample: on `G2c` the sold section is located at row 0, no row
of the claimed window `[section_start − 3, section_start]` has two keyword
hits — so the claim predicts zero records — yet extraction (whose window is
anchored at the data-start row, not the section row) returns records. -/
theorem c2_header_window_counterexample :
    findSectionStart G2c "sold" = some 0 ∧
    claimHeaderRow G2c 0 = none ∧
    (extract_unit_data G2c "sold").1 ≠ [] := by
  exact ⟨by decide, by decide, by decide⟩

/-- C2 (amended): the header row is the first row of the window
`[data_start − 3, data_start]` (clamped) with at least two keyword hits —
a row with 2 hits is accepted, a row with 1 hit rejected — where
`data_start` is the first row at or after the located section row containing
a cell equal to `"1"`; when no row of that window qualifies, the section
yields zero records. -/
theorem c2_header_window_amended (g : Grid) (kw : String) (s d : Nat)
    (hs : findSectionStart g kw = some s) (hd : findDataStart g s = some d) :
    (∀ h : Nat, findHeaderRow g d = some h ↔
      (d - 3 ≤ h ∧ h ≤ d ∧ 2 ≤ headerHits (g.getD h []) ∧
       ∀ j, d - 3 ≤ j → j < h → headerHits (g.getD j []) < 2)) ∧
    (findHeaderRow g d = none → (extract_unit_data g kw).1 = []) := by
  constructor
  · intro h
    unfold findHeaderRow
    rw [find?_range'_eq_some]
    constructor
    · rintro ⟨h1, h2, h3, h4⟩
      refine ⟨h1, by omega, by simpa using h3, ?_⟩
      intro j hj1 hj2
      have := h4 j hj1 hj2
      simp only [decide_eq_false_iff_not] at this
      omega
    · rintro ⟨h1, h2, h3, h4⟩
      refine ⟨h1, by omega, by simpa using h3, ?_⟩
      intro y hy1 hy2
      have := h4 y hy1 hy2
      simp only [decide_eq_false_iff_not]
      omega
  · intro hnone
    unfold extract_unit_data
    rw [hs]
    dsimp only
    rw [hd]
    dsimp only
    rw [hnone]

/-- C2 amended witness: instance of the characterization on `G1`, where the
section row is 0, the data start is 2 and the detected header row is 1. -/
theorem c2_header_window_amended_witness :
    findHeaderRow G1 2 = some 1 ↔
      (2 - 3 ≤ 1 ∧ 1 ≤ 2 ∧ 2 ≤ headerHits (G1.getD 1 []) ∧
       ∀ j, 2 - 3 ≤ j → j < 1 → headerHits (G1.getD j []) < 2) :=
  (c2_header_window_amended G1 "sold" 0 2 (by decide) (by decide)).1 1

/-- C3 counterexample: with project name `"Alpha"` found but the registration
number still empty, the recovery pass's re-scan of sheet `G3` finds `"Beta"`
and overwrites the non-empty project name. -/
theorem c3_first_writer_counterexample :
    st0.project_name = "Alpha" ∧ (recoveryFold st0 [G3]).project_name = "Beta" := by
  exact ⟨rfl, by decide⟩

/-- C3 (amended): the as-on date is never overwritten once non-empty, and
project name and registration number are never overwritten once *both* are
non-empty; while exactly one of them is empty, a recovery re-scan re-runs
the project-info extraction and may overwrite the other.  The filename
fallback never overwrites any non-empty field. -/
theorem c3_first_writer_amended (st : ConvState) (gs : List Grid) (fp fr fd : String) :
    (st.as_on_date ≠ "" → (recoveryFold st gs).as_on_date = st.as_on_date) ∧
    (st.project_name ≠ "" → st.rera_number ≠ "" →
      (recoveryFold st gs).project_name = st.project_name ∧
      (recoveryFold st gs).rera_number = st.rera_number) ∧
    (st.project_name ≠ "" →
      (applyFilenameFallback st fp fr fd).project_name = st.project_name) ∧
    (st.rera_number ≠ "" →
      (applyFilenameFallback st fp fr fd).rera_number = st.rera_number) ∧
    (st.as_on_date ≠ "" →
      (applyFilenameFallback st fp fr fd).as_on_date = st.as_on_date) := by
  refine ⟨(recoveryFold_preserves gs st).1, (recoveryFold_preserves gs st).2, ?_, ?_, ?_⟩
  · intro h
    have hb : (st.project_name == "") = false := by simp [h]
    unfold applyFilenameFallback
    split
    · simp only [hb, Bool.false_eq_true, if_false]
      split <;> split <;> rfl
    · rfl
  · intro h
    unfold applyFilenameFallback
    split
    · by_cases hpn : st.project_name = ""
      · have hb1 : (st.project_name == "") = true := by simp [hpn]
        have hb2 : (({ st with project_name := fp } : ConvState).rera_number == "") = false := by
          simp [h]
        simp only [hb1, if_true, hb2, Bool.false_eq_true, if_false]
        split <;> rfl
      · have hb1 : (st.project_name == "") = false := by simp [hpn]
        have hb2 : (st.rera_number == "") = false := by simp [h]
        simp only [hb1, hb2, Bool.false_eq_true, if_false]
        split <;> rfl
    · rfl
  · intro h
    unfold applyFilenameFallback
    split
    · dsimp only
      split <;> simp [h, apply_ite]
    · rfl

/-- C3 amended witness: with all three fields non-empty, the recovery
re-scan of `G3` and the filename fallback change nothing. -/
theorem c3_first_writer_amended_witness :
    (recoveryFold stW [G3]).as_on_date = stW.as_on_date ∧
    (recoveryFold stW [G3]).project_name = stW.project_name ∧
    (recoveryFold stW [G3]).rera_number = stW.rera_number ∧
    (applyFilenameFallback stW "x" "y" "z").project_name = stW.project_name :=
  ⟨(c3_first_writer_amended stW [G3] "x" "y" "z").1 (by decide),
   ((c3_first_writer_amended stW [G3] "x" "y" "z").2.1 (by decide) (by decide)).1,
   ((c3_first_writer_amended stW [G3] "x" "y" "z").2.1 (by decide) (by decide)).2,
   (c3_first_writer_amended stW [G3] "x" "y" "z").2.2.1 (by decide)⟩

/-- C4: on `G4` the trigger sentence is present in a cell but the
project-name capture pattern fails, and `extract_project_info` raises
`UnboundLocalError` (`return project_name, rera_number` reads an unassigned
local) instead of returning a pair of empty strings as the spec requires. -/
theorem c4_project_info_raises :
    findTriggerCell G4 ≠ none ∧
    extract_project_info G4 = Except.error PyError.unboundLocal := by
  exact ⟨by decide, rfl⟩

/-- C5 counterexample: a cell containing only the configured synonym
`booked` does *not* locate the sold section — the code searches for the
section key `"sold"` itself, never the synonym list. -/
theorem c5_synonym_counterexample :
    claimLocate G5 Section.sold = some 0 ∧
    findSectionStart G5 (sectionName Section.sold) = none := by
  exact ⟨by decide, by decide⟩

/-- C5 (amended): section location searches only for the section's own
dictionary key as a case-insensitive substring (rows top-to-bottom; the
configured synonyms are unused): it returns the first row some cell of which
contains the key, and the not-found sentinel exactly when no row does. -/
theorem c5_keyword_only_amended (g : Grid) (sec : Section) :
    (∀ i : Nat, findSectionStart g (sectionName sec) = some i ↔
      ((∃ r, g.get? i = some r ∧ rowHasKeyword (sectionName sec) r = true) ∧
       ∀ j, j < i → ∀ r, g.get? j = some r → rowHasKeyword (sectionName sec) r = false)) ∧
    (findSectionStart g (sectionName sec) = none ↔
      ∀ r ∈ g, rowHasKeyword (sectionName sec) r = false) :=
  ⟨fun i => findRowIdx_eq_some_iff _ g i, findRowIdx_eq_none_iff _ g⟩

/-- C5 amended witness: the characterization applied on `G1` at row 0. -/
theorem c5_keyword_only_amended_witness :
    findSectionStart G1 (sectionName Section.sold) = some 0 :=
  ((c5_keyword_only_amended G1 Section.sold).1 0).2
    ⟨⟨G1.getD 0 [], by decide, by decide⟩, fun j hj _ _ => absurd hj (by omega)⟩

/-- C6: the building flag is a single document-global boolean — the
disjunction over all sections of "this section's column mapping located a
building/wing column" — and it alone decides the shape of every rendered
data row (6 cells with the Building No column, 5 without, whatever section
the row belongs to) and the presence of the Building No header cell. -/
theorem c6_building_flag_global (g : Grid) :
    ((processTableC g).2 = (extractOrder.any fun s => (extract_unit_data g (sectionName s)).2)) ∧
    (∀ row ∈ renderAll (processTableC g).2 (processTableC g).1,
      row.length = if (processTableC g).2 then 6 else 5) ∧
    (("Building No" ∈ renderHeaderCells (processTableC g).2) ↔ (processTableC g).2 = true) := by
  refine ⟨?_, ?_, ?_⟩
  · unfold processTableC
    rw [processTableC_flag_any g extractOrder emptySectionMap false]
    simp
  · intro row hrow
    rw [renderAll_eq] at hrow
    obtain ⟨k, sec, u, rfl⟩ := mem_renderRowsFrom _ _ _ _ hrow
    exact renderUnitRow_length _ _ _ _
  · cases hfv : (processTableC g).2 <;> decide

/-- C6 witness: on `G6w` only the sold header has a wing column, yet the
tenant section's rendered row also carries the Building No cell (6 cells). -/
theorem c6_building_flag_global_witness :
    (["2", "F9", "F9", "5.00", "Tenant", "NA"] ∈
      renderAll (processTableC G6w).2 (processTableC G6w).1) ∧
    (["2", "F9", "F9", "5.00", "Tenant", "NA"] : List String).length =
      (if (processTableC G6w).2 then 6 else 5) :=
  ⟨by decide, (c6_building_flag_global G6w).2.1 _ (by decide)⟩

/-- C7: the rendered table is exactly the records of the fixed presentation
order `sold, unsold, landowner, tenant, rehab, cidco, pap` (which differs
from the extraction-time order), each section's records in extracted order,
with output serials 1..N assigned contiguously across all sections by
position — independent of the serial values stored in the records. -/
theorem c7_render_order (flag : Bool) (m : SectionMap) :
    sectionOrder ≠ extractOrder ∧
    (renderAll flag m).length = (orderedTagged m).length ∧
    (∀ i sec u, (orderedTagged m).get? i = some (sec, u) →
      (renderAll flag m).get? i = some (renderUnitRow flag (i + 1) sec u)) := by
  refine ⟨by decide, ?_, ?_⟩
  · rw [renderAll_eq]
    exact renderRowsFrom_length flag (orderedTagged m) 1
  · intro i sec u hi
    rw [renderAll_eq, renderRowsFrom_get? flag (orderedTagged m) 1 i, hi]
    rw [Nat.add_comm 1 i]
    rfl

/-- C7 witness: sold=[A,B], unsold=[C], landowner=[] renders rows
A(1), B(2), C(3). -/
theorem c7_render_order_witness :
    ((orderedTagged mW7).get? 0 = some (Section.sold, rA)) ∧
    ((renderAll false mW7).get? 0 = some (renderUnitRow false 1 Section.sold rA)) ∧
    ((orderedTagged mW7).get? 1 = some (Section.sold, rB)) ∧
    ((renderAll false mW7).get? 1 = some (renderUnitRow false 2 Section.sold rB)) ∧
    ((orderedTagged mW7).get? 2 = some (Section.unsold, rC)) ∧
    ((renderAll false mW7).get? 2 = some (renderUnitRow false 3 Section.unsold rC)) :=
  ⟨by decide, (c7_render_order false mW7).2.2 0 _ _ (by decide), by decide,
   (c7_render_order false mW7).2.2 1 _ _ (by decide), by decide,
   (c7_render_order false mW7).2.2 2 _ _ (by decide)⟩

/-- C8: two-run noninterference of the stopping rule — two grids of the same
height that agree on the located section row, the detected header row (and
its cell texts), and the serial/building/flat/carpet column cells of every
row from the data start onward, extract the same record list for the
section, whatever other sections' banner keywords appear in the remaining
cells. -/
theorem c8_stop_noninterference (g1 g2 : Grid) (kw : String) (s d h : Nat)
    (hlen : g1.length = g2.length)
    (hs1 : findSectionStart g1 kw = some s) (hs2 : findSectionStart g2 kw = some s)
    (hd1 : findDataStart g1 s = some d) (hd2 : findDataStart g2 s = some d)
    (hh1 : findHeaderRow g1 d = some h) (hh2 : findHeaderRow g2 d = some h)
    (hhdr : headersOf g1 h = headersOf g2 h)
    (hcells : ∀ r, r < g1.length → d ≤ r →
      ∀ c ∈ relevantCols (buildColMap (headersOf g1 h)), cellAt g1 r c = cellAt g2 r c) :
    (extract_unit_data g1 kw).1 = (extract_unit_data g2 kw).1 := by
  unfold extract_unit_data
  rw [hs1, hs2]
  dsimp only
  rw [hd1, hd2]
  dsimp only
  rw [hh1, hh2]
  dsimp only
  rw [← hhdr]
  rw [← hlen]
  apply extractRows_congr
  intro r hr c hc
  rw [List.mem_range'_1] at hr
  exact hcells r (by omega) (by omega) c hc

/-- C8 witness: `G8b` differs from `G8a` only by a `tenant` banner keyword
dropped into an unused cell of a data row; sold-section extraction agrees. -/
theorem c8_stop_noninterference_witness :
    (extract_unit_data G8a "sold").1 = (extract_unit_data G8b "sold").1 :=
  c8_stop_noninterference G8a G8b "sold" 0 2 1 (by decide) (by decide) (by decide)
    (by decide) (by decide) (by decide) (by decide) (by decide) (by decide)

/-- C9: in the rendered document, the registration-date cell (the last cell
of each data row) is empty for a record of the sold section and `"NA"` for a
record of any other section. -/
theorem c9_reg_date (flag : Bool) (m : SectionMap) (i : Nat) (sec : Section)
    (u : UnitRecord) (hi : (orderedTagged m).get? i = some (sec, u)) :
    (renderAll flag m).get? i = some (renderUnitRow flag (i + 1) sec u) ∧
    (renderUnitRow flag (i + 1) sec u).getLast? =
      some (if sec = Section.sold then "" else "NA") := by
  constructor
  · rw [renderAll_eq, renderRowsFrom_get? flag (orderedTagged m) 1 i, hi]
    rw [Nat.add_comm 1 i]
    rfl
  · rw [renderUnitRow_getLast, regDateVal_eq]

/-- C9 witness: a sold record renders an empty registration-date cell and a
cidco record renders `"NA"`. -/
theorem c9_reg_date_witness :
    ((orderedTagged mW9).get? 0 = some (Section.sold, rA)) ∧
    ((renderAll true mW9).get? 0 = some (renderUnitRow true 1 Section.sold rA) ∧
     (renderUnitRow true 1 Section.sold rA).getLast? = some "") ∧
    ((orderedTagged mW9).get? 1 = some (Section.cidco, rC)) ∧
    ((renderAll true mW9).get? 1 = some (renderUnitRow true 2 Section.cidco rC) ∧
     (renderUnitRow true 2 Section.cidco rC).getLast? = some "NA") :=
  ⟨by decide, c9_reg_date true mW9 0 Section.sold rA (by decide), by decide,
   c9_reg_date true mW9 1 Section.cidco rC (by decide)⟩

/-- C10: when rendering a record, carpet-area text that parses as a
(finite decimal) floating-point number is reformatted to exactly two decimal
places — e.g. `"23.5"` renders as `"23.50"` — while text that does not parse
is written to the output cell unchanged. -/
theorem c10_carpet_format :
    (∀ s : String, (pyParseFloatParts s).isSome = true →
      isTwoDecimalString (carpetDisplay s) = true) ∧
    (∀ s : String, pyParseFloatParts s = none → carpetDisplay s = s) ∧
    carpetDisplay "23.5" = "23.50" ∧
    carpetDisplay "abc" = "abc" := by
  refine ⟨?_, ?_, by decide, by decide⟩
  · intro s hs
    unfold carpetDisplay
    cases hp : pyParseFloatParts s with
    | none => rw [hp] at hs; simp at hs
    | some parts =>
      obtain ⟨neg, ids, fds, e⟩ := parts
      dsimp only
      exact format2f_isTwoDecimal neg _
  · intro s hs
    unfold carpetDisplay
    rw [hs]

/-- C10 witness: `"23.5"` parses and renders with exactly two decimals;
`"abc"` fails to parse and is written unchanged. -/
theorem c10_carpet_format_witness :
    (pyParseFloatParts "23.5").isSome = true ∧
    isTwoDecimalString (carpetDisplay "23.5") = true ∧
    pyParseFloatParts "abc" = none ∧
    carpetDisplay "abc" = "abc" :=
  ⟨by decide, c10_carpet_format.1 "23.5" (by decide), by decide,
   c10_carpet_format.2.1 "abc" (by decide)⟩
